import Mathlib

/-!
Shallow embedding of the GeoIA Territorial core: the code-execution engine
(src/core/execution_engine.py, class CodeExecutionEngine) and the centralized
geospatial data store (src/core/data_store.py, class GeoDataStore).

Modelling conventions:
- Python dicts become insertion-ordered association lists (`dictGet`/`dictSet`
  reproduce lookup and update-in-place-or-append semantics).
- Python values relevant to the engine become the inductive `Value`; the
  identity of a constructed folium.Map instance is a `Nat` tag allocated in
  construction order, so list membership on map objects models Python
  reference identity (folium.Map does not override equality).
- The folium module is a shared mutable object: its `Map` attribute lives in
  `FoliumWorld`, threaded through `execute`, so the monkey-patch install and
  the restore in the `finally` block are observable across calls.
- Scripts are sequences of statements; `renderScript` produces the exact text
  the engine validates with its regex deny-list, and the statement semantics
  mirror CPython execution under the engine's restricted `__builtins__`
  (e.g. `import x` raises because `__import__` is absent). Exception message
  strings are kept close to CPython but without quote characters.
- The regex fragments actually occurring in FORBIDDEN_PATTERNS (literals,
  `\s+`, `\s*`, `\.`, `\(`, `.*`, flag IGNORECASE) are interpreted by a small
  fuel-driven matcher; `reSearch` is `re.search` (match at any position).
- gpd.read_file is abstracted per backing file: each filesystem entry records
  whether metadata analysis succeeds (and with which metadata) and whether a
  full load succeeds; a successful load allocates a fresh handle number from
  `HandleWorld`, so handle equality models object identity and allocation
  counts re-parses. Floating point sizes and datetimes are abstracted.
-/

namespace GeoIA

/-- A raised Python exception: its type name and message. -/
structure PyExc where
  kind : String
  msg : String
deriving DecidableEq, Repr

/-- Python runtime values visible to the engine's namespace. -/
inductive Value where
  | pyNone
  | pyInt (n : Int)
  | pyStr (s : String)
  | mapObj (id : Nat)
  | foliumMod
  | mapClass
  | captureFun
  | obj (ty : String)
deriving DecidableEq, Repr

/-- Python type name of a value, as type(v).__name__. -/
def typeName : Value → String
  | .pyNone => "NoneType"
  | .pyInt _ => "int"
  | .pyStr _ => "str"
  | .mapObj _ => "Map"
  | .foliumMod => "module"
  | .mapClass => "type"
  | .captureFun => "function"
  | .obj t => t

/-- Association-list lookup with Python dict semantics (keys unique). -/
def dictGet {α : Type} : List (String × α) → String → Option α
  | [], _ => none
  | (k0, v0) :: rest, k => if k0 = k then some v0 else dictGet rest k

/-- Python dict assignment: update in place if the key exists, else append. -/
def dictSet {α : Type} : List (String × α) → String → α → List (String × α)
  | [], k, v => [(k, v)]
  | (k0, v0) :: rest, k, v =>
    if k0 = k then (k, v) :: rest else (k0, v0) :: dictSet rest k v

/-- The keys of an association list, in order. -/
def keysOf {α : Type} (d : List (String × α)) : List String := d.map Prod.fst

/-- ASCII lower-casing of one character (what re.IGNORECASE and str.lower use
on the inputs occurring here). -/
def lowAscii (c : Char) : Char :=
  if 65 ≤ c.toNat && c.toNat ≤ 90 then Char.ofNat (c.toNat + 32) else c

/-- Lower-casing of a string, as str.lower on ASCII input. -/
def lowerStr (s : String) : String := String.mk (s.toList.map lowAscii)

/-- Case-insensitive character comparison. -/
def eqIgnoreCase (a b : Char) : Bool := lowAscii a == lowAscii b

/-- Whitespace class of the regex escape backslash-s. -/
def isWsChar (c : Char) : Bool :=
  c == ' ' || c == '\t' || c == '\n' || c == '\r' || c.toNat == 11 || c.toNat == 12

/-- The regex atoms occurring in the engine's FORBIDDEN_PATTERNS. -/
inductive RAtom where
  | lit (c : Char)
  | wsPlus
  | wsStar
  | anyStar
deriving DecidableEq, Repr

/-- Fuel-driven matcher: does the pattern match a prefix of the text?
Fuel only bounds recursion depth; every call below gets enough of it. -/
def matchAtom : Nat → List RAtom → List Char → Bool
  | 0, _, _ => false
  | _, [], _ => true
  | fuel+1, .lit c :: ps, ds =>
    match ds with
    | [] => false
    | d :: ds2 => eqIgnoreCase c d && matchAtom fuel ps ds2
  | fuel+1, .wsPlus :: ps, ds =>
    match ds with
    | [] => false
    | d :: ds2 => isWsChar d && matchAtom fuel (.wsStar :: ps) ds2
  | fuel+1, .wsStar :: ps, ds =>
    matchAtom fuel ps ds ||
      (match ds with
       | [] => false
       | d :: ds2 => isWsChar d && matchAtom fuel (.wsStar :: ps) ds2)
  | fuel+1, .anyStar :: ps, ds =>
    matchAtom fuel ps ds ||
      (match ds with
       | [] => false
       | d :: ds2 => !(d == '\n') && matchAtom fuel (.anyStar :: ps) ds2)

/-- re.search with IGNORECASE: the pattern matches starting at some position. -/
def reSearch (p : List RAtom) (s : String) : Bool :=
  let cs := s.toList
  (List.range (cs.length + 1)).any
    (fun i => matchAtom (p.length + cs.length + 1) p (cs.drop i))

/-- A run of literal regex characters. -/
def lits (s : String) : List RAtom := s.toList.map RAtom.lit

/-- CodeExecutionEngine.FORBIDDEN_PATTERNS: each raw pattern string paired
with its interpretation as regex atoms. -/
def FORBIDDEN_PATTERNS : List (String × List RAtom) :=
  [ (("import\\s+os"), lits ("import") ++ [RAtom.wsPlus] ++ lits ("os")),
    (("import\\s+subprocess"), lits ("import") ++ [RAtom.wsPlus] ++ lits ("subprocess")),
    (("import\\s+sys"), lits ("import") ++ [RAtom.wsPlus] ++ lits ("sys")),
    (("__import__"), lits ("__import__")),
    (("eval\\s*\\("), lits ("eval") ++ [RAtom.wsStar, RAtom.lit '(']),
    (("exec\\s*\\("), lits ("exec") ++ [RAtom.wsStar, RAtom.lit '(']),
    (("open\\s*\\("), lits ("open") ++ [RAtom.wsStar, RAtom.lit '(']),
    (("file\\s*\\("), lits ("file") ++ [RAtom.wsStar, RAtom.lit '(']),
    (("input\\s*\\("), lits ("input") ++ [RAtom.wsStar, RAtom.lit '(']),
    (("os\\."), lits ("os") ++ [RAtom.lit '.']),
    (("subprocess\\."), lits ("subprocess") ++ [RAtom.lit '.']),
    (("shutil\\."), lits ("shutil") ++ [RAtom.lit '.']),
    (("pathlib\\.Path.*unlink"),
      lits ("pathlib") ++ [RAtom.lit '.'] ++ lits ("Path") ++ [RAtom.anyStar] ++ lits ("unlink")),
    (("\\.remove\\s*\\("), [RAtom.lit '.'] ++ lits ("remove") ++ [RAtom.wsStar, RAtom.lit '(']),
    (("\\.delete\\s*\\("), [RAtom.lit '.'] ++ lits ("delete") ++ [RAtom.wsStar, RAtom.lit '(']),
    (("\\.rmdir\\s*\\("), [RAtom.lit '.'] ++ lits ("rmdir") ++ [RAtom.wsStar, RAtom.lit '(']) ]

/-- CodeExecutionEngine.validate_code: first matching deny pattern rejects. -/
def validate_code (code : String) : Bool × String :=
  match FORBIDDEN_PATTERNS.find? (fun p => reSearch p.2 code) with
  | some p => (false, ("Operación no permitida detectada: ") ++ p.1)
  | none => (true, "")

/-- Literals a script statement can assign. -/
inductive Lit where
  | lnone
  | lint (n : Int)
  | lstr (s : String)
deriving DecidableEq, Repr

/-- The value a literal denotes. -/
def litValue : Lit → Value
  | .lnone => Value.pyNone
  | .lint n => Value.pyInt n
  | .lstr s => Value.pyStr s

/-- Python source text of a literal. -/
def renderLit : Lit → String
  | .lnone => "None"
  | .lint n => toString n
  | .lstr s => ("\"") ++ s ++ ("\"")

/-- Statements of executed scripts (the fragment the engine's claims need). -/
inductive Stmt where
  | printStmt (s : String)
  | importStmt (m : String)
  | divZero
  | assignLit (v : String) (l : Lit)
  | assignVar (dst src : String)
  | newMap (v : String)
deriving DecidableEq, Repr

/-- Python source text of one statement. -/
def renderStmt : Stmt → String
  | .printStmt s => ("print(\"") ++ s ++ ("\")")
  | .importStmt m => ("import ") ++ m
  | .divZero => "1/0"
  | .assignLit v l => v ++ (" = ") ++ renderLit l
  | .assignVar d s => d ++ (" = ") ++ s
  | .newMap v => v ++ (" = folium.Map()")

/-- The script text handed to execute(code). -/
def renderScript (script : List Stmt) : String :=
  String.intercalate ("\n") (script.map renderStmt)

/-- The folium module object shared across executions: its Map attribute. -/
structure FoliumWorld where
  MapAttr : Value
deriving DecidableEq, Repr

/-- The engine object (src lines 60-70): available layers plus the result
collections mutated during a run. -/
structure CodeExecutionEngine where
  layers : List (String × Value) := []
  results : List (String × Value) := []
  generated_maps : List Nat := []
  generated_figures : List Nat := []
deriving DecidableEq, Repr

/-- ALLOWED_MODULES: names injected into the execution namespace. -/
def ALLOWED_MODULES : List (String × Value) :=
  [ (("geopandas"), Value.obj ("module")), (("gpd"), Value.obj ("module")),
    (("pandas"), Value.obj ("module")), (("pd"), Value.obj ("module")),
    (("numpy"), Value.obj ("module")), (("np"), Value.obj ("module")),
    (("folium"), Value.foliumMod),
    (("MarkerCluster"), Value.obj ("type")), (("HeatMap"), Value.obj ("type")) ]

/-- re.sub of non-alphanumeric-underscore characters by underscore. -/
def sanitizeName (s : String) : String :=
  String.mk (s.toList.map (fun c => if c.isAlphanum || c == '_' then c else '_'))

/-- exec_globals as built by execute (src lines 112-149): restricted builtins,
allowed modules, the layer dict under two aliases, and each layer under its
sanitized name. -/
def initGlobals (eng : CodeExecutionEngine) : List (String × Value) :=
  let base := (("__builtins__"), Value.obj ("dict")) ::
    (ALLOWED_MODULES ++ [(("layers"), Value.obj ("dict")), (("capas"), Value.obj ("dict"))])
  eng.layers.foldl (fun g p => dictSet g (sanitizeName p.1) p.2) base

/-- Mutable state while the script body runs: the namespace, the stdout
buffer, the folium module's current Map attribute, the capture list
(self.generated_maps) and the id counter for freshly built maps. -/
structure RunState where
  ns : List (String × Value)
  out : String
  foliumMapAttr : Value
  genMaps : List Nat
  nextId : Nat
deriving DecidableEq, Repr

/-- Setting the Map attribute on the object currently bound to folium in the
namespace: on the module it rebinds the shared attribute, on other objects
with attribute dictionaries it succeeds with no tracked effect, on primitives
it raises AttributeError; a missing binding would raise KeyError. -/
def setAttrMap (w : FoliumWorld) (target : Option Value) (v : Value) :
    FoliumWorld × Option PyExc :=
  match target with
  | some Value.foliumMod => (⟨v⟩, none)
  | some Value.pyNone => (w, some ⟨"AttributeError", ("NoneType object has no attribute Map")⟩)
  | some (Value.pyInt _) => (w, some ⟨"AttributeError", ("int object has no attribute Map")⟩)
  | some (Value.pyStr _) => (w, some ⟨"AttributeError", ("str object has no attribute Map")⟩)
  | some _ => (w, none)
  | none => (w, some ⟨"KeyError", ("folium")⟩)

/-- One statement under the engine's restricted namespace. print appends to
the redirected stdout; import raises (no dunder import in builtins); 1/0
raises ZeroDivisionError; folium.Map() dispatches through the module's
current Map attribute, and the capture wrapper appends the new instance to
self.generated_maps in construction order. -/
def execStmt (s : Stmt) (st : RunState) : RunState × Option PyExc :=
  match s with
  | .printStmt txt => ({ st with out := st.out ++ txt ++ ("\n") }, none)
  | .importStmt _ => (st, some ⟨"ImportError", ("__import__ not found")⟩)
  | .divZero => (st, some ⟨"ZeroDivisionError", ("division by zero")⟩)
  | .assignLit v l => ({ st with ns := dictSet st.ns v (litValue l) }, none)
  | .assignVar dst src =>
    match dictGet st.ns src with
    | some v => ({ st with ns := dictSet st.ns dst v }, none)
    | none => (st, some ⟨"NameError", ("name ") ++ src ++ (" is not defined")⟩)
  | .newMap v =>
    match dictGet st.ns ("folium") with
    | some Value.foliumMod =>
      match st.foliumMapAttr with
      | Value.captureFun =>
        ({ st with ns := dictSet st.ns v (Value.mapObj st.nextId),
                   genMaps := st.genMaps ++ [st.nextId], nextId := st.nextId + 1 }, none)
      | Value.mapClass =>
        ({ st with ns := dictSet st.ns v (Value.mapObj st.nextId), nextId := st.nextId + 1 }, none)
      | _ => (st, some ⟨"TypeError", ("folium.Map is not callable")⟩)
    | some other => (st, some ⟨"AttributeError", typeName other ++ (" object has no attribute Map")⟩)
    | none => (st, some ⟨"NameError", ("name folium is not defined")⟩)

/-- Sequential execution, stopping at the first raised exception (effects up
to that point persist, as with exec on a shared globals dict). -/
def runStmts : List Stmt → RunState → RunState × Option PyExc
  | [], st => (st, none)
  | s :: rest, st =>
    match execStmt s st with
    | (st2, some e) => (st2, some e)
    | (st2, none) => runStmts rest st2

/-- Ordered candidate result-variable names (src line 173). -/
def RESULT_NAMES : List String :=
  [("resultado"), ("result"), ("output"), ("mapa"), ("map"), ("gdf"), ("df")]

/-- First candidate name bound to a non-None value (src lines 172-176). -/
def findResult : List String → List (String × Value) → Value
  | [], _ => Value.pyNone
  | n :: rest, ns =>
    match dictGet ns n with
    | some Value.pyNone => findResult rest ns
    | some v => v
    | none => findResult rest ns

/-- isinstance(v, cls) where cls is whatever folium.Map currently is: checking
against the real Map class tests the value; checking against anything that is
not a type (such as the capture_map function) raises TypeError. -/
def isinstanceMap (v : Value) (cls : Value) : Except PyExc Bool :=
  match cls with
  | Value.mapClass =>
    match v with
    | Value.mapObj _ => Except.ok true
    | _ => Except.ok false
  | _ => Except.error ⟨"TypeError", ("isinstance() arg 2 must be a type or tuple of types")⟩

/-- The namespace sweep of src lines 179-181: append map-typed bindings not
already captured; on a raised isinstance the partial capture list persists. -/
def mapScan : List (String × Value) → Value → List Nat → List Nat × Option PyExc
  | [], _, gen => (gen, none)
  | (_, v) :: rest, cls, gen =>
    match isinstanceMap v cls with
    | Except.error e => (gen, some e)
    | Except.ok true =>
      match v with
      | Value.mapObj i =>
        mapScan rest cls (if gen.contains i then gen else gen ++ [i])
      | _ => mapScan rest cls gen
    | Except.ok false => mapScan rest cls gen

/-- The result dictionary of execute (one shape, optional keys as Option). -/
structure ExecResult where
  success : Bool
  error : Option String
  output : String
  result : Value
  maps : List Nat
  figures : List Nat
  traceback : Option String
  vars : Option (List (String × String))
deriving DecidableEq, Repr

/-- traceback.format_exc, abstracted to a deterministic text of the raise. -/
def tracebackText (e : PyExc) : String :=
  ("Traceback (most recent call last): ") ++ e.kind ++ (": ") ++ e.msg

/-- The early-return dictionary of a policy violation (src lines 101-109). -/
def policyDict (err : String) : ExecResult :=
  { success := false, error := some err, output := "", result := Value.pyNone,
    maps := [], figures := [], traceback := none, vars := none }

/-- The except-branch dictionary (src lines 194-203). -/
def exceptDict (e : PyExc) (out : String) : ExecResult :=
  { success := false, error := some (e.kind ++ (": ") ++ e.msg),
    traceback := some (tracebackText e), output := out, result := Value.pyNone,
    maps := [], figures := [], vars := none }

/-- The variables report of the success dictionary (src lines 190-191). -/
def varsDict (ns : List (String × Value)) : List (String × String) :=
  (ns.filter (fun p =>
      !(match p.1.toList with | c :: _ => c == '_' | [] => false)
      && !((keysOf ALLOWED_MODULES).contains p.1))).map
    (fun p => (p.1, typeName p.2))

/-- The success dictionary (src lines 183-192). -/
def successDict (st : RunState) (result : Value) (gen : List Nat) : ExecResult :=
  { success := true, error := none, output := st.out, result := result,
    maps := gen, figures := [], traceback := none,
    vars := some (varsDict st.ns) }

/-- Everything after exec returns or raises: result selection, the namespace
sweep, the except branch, and the finally-block restore of folium.Map through
the (script-mutable) namespace binding. An exception raised by the restore
replaces the pending return, as in Python. -/
def afterRun (eng : CodeExecutionEngine) (orig : Value) (st1 : RunState)
    (exc : Option PyExc) :
    Except PyExc ExecResult × FoliumWorld × CodeExecutionEngine :=
  let pending : ExecResult × List Nat :=
    match exc with
    | some e => (exceptDict e st1.out, st1.genMaps)
    | none =>
      let result := findResult RESULT_NAMES st1.ns
      let scan := mapScan st1.ns st1.foliumMapAttr st1.genMaps
      match scan.2 with
      | some e => (exceptDict e st1.out, scan.1)
      | none => (successDict st1 result scan.1, scan.1)
  let fin := setAttrMap ⟨st1.foliumMapAttr⟩ (dictGet st1.ns ("folium")) orig
  let engAfter := { eng with generated_maps := pending.2, generated_figures := [] }
  match fin.2 with
  | some e => (Except.error e, fin.1, engAfter)
  | none => (Except.ok pending.1, fin.1, engAfter)

/-- Canonical initial run state: the folium module attribute has just been
patched to the capture wrapper. -/
def initRunState (eng : CodeExecutionEngine) : RunState :=
  { ns := initGlobals eng, out := "", foliumMapAttr := Value.captureFun,
    genMaps := [], nextId := 0 }

/-- The body of execute after validation passed (src lines 111-206). -/
def executeBody (eng : CodeExecutionEngine) (w : FoliumWorld) (script : List Stmt) :
    Except PyExc ExecResult × FoliumWorld × CodeExecutionEngine :=
  let g := initGlobals eng
  let inst := setAttrMap w (dictGet g ("folium")) Value.captureFun
  match inst.2 with
  | some e => (Except.error e, inst.1, { eng with generated_maps := [], generated_figures := [] })
  | none =>
    let run := runStmts script
      { ns := g, out := "", foliumMapAttr := inst.1.MapAttr, genMaps := [], nextId := 0 }
    afterRun eng w.MapAttr run.1 run.2

/-- CodeExecutionEngine.execute (src lines 89-206). The first component is
the returned dictionary, or the exception if execute itself raises; the
second is the folium module state after the call; the third the engine. -/
def execute (eng : CodeExecutionEngine) (w : FoliumWorld) (script : List Stmt) :
    Except PyExc ExecResult × FoliumWorld × CodeExecutionEngine :=
  match validate_code (renderScript script) with
  | (false, err) => (Except.ok (policyDict err), w, eng)
  | (true, _) => executeBody eng w script

/-- The returned dictionary of an execute call, if it returned normally. -/
def resOf (t : Except PyExc ExecResult × FoliumWorld × CodeExecutionEngine) :
    Option ExecResult :=
  match t.1 with
  | Except.ok r => some r
  | Except.error _ => none

/-- The exception of an execute call, if execute itself raised. -/
def excOf (t : Except PyExc ExecResult × FoliumWorld × CodeExecutionEngine) :
    Option PyExc :=
  match t.1 with
  | Except.ok _ => none
  | Except.error e => some e

/-- The folium module state after an execute call. -/
def worldOf (t : Except PyExc ExecResult × FoliumWorld × CodeExecutionEngine) :
    FoliumWorld := t.2.1

/-- A world in which folium.Map is the pristine Map class. -/
def cleanWorld : FoliumWorld := ⟨Value.mapClass⟩

/-- An engine with no layers bound. -/
def engEmpty : CodeExecutionEngine := {}

/-! The data store (src/core/data_store.py). -/

/-- Metadata a successful gpd.read_file-based analysis extracts from a layer
file (geometry type, CRS, feature count, attribute columns, total bounds). -/
structure Meta where
  geometry_type : Option String
  crs : Option String
  feature_count : Nat
  columns : List String
  bounds : Option (Int × Int × Int × Int)
deriving DecidableEq, Repr

/-- One filesystem object under the knowledge-base root, as rglob yields it:
its path components relative to the root, whether it is a regular file, its
size, and the abstracted outcomes of reading it as a geospatial layer
(analyze: fast metadata read; loadOk: full gpd.read_file for load_layer). -/
structure Entry where
  path : List String
  isFile : Bool
  sizeKB : Nat
  analyze : Option Meta
  loadOk : Bool
deriving DecidableEq, Repr

/-- The disk contents at a root path: whether the root exists and its
recursive listing in directory-walk order (directories included). -/
structure FS where
  rootExists : Bool
  entries : List Entry
deriving DecidableEq, Repr

/-- The filename (last path component) of an entry. -/
def fileNameOf (e : Entry) : String := e.path.getLastD ("")

/-- Index of the last dot in a character list. -/
def lastDotAux : List Char → Nat → Option Nat → Option Nat
  | [], _, best => best
  | c :: rest, i, best => lastDotAux rest (i + 1) (if c == '.' then some i else best)

/-- pathlib stem and suffix of a filename: the suffix starts at the last dot
when that dot is neither the first nor the last character. -/
def stemSuffix (name : String) : String × String :=
  let cs := name.toList
  match lastDotAux cs 0 none with
  | some i =>
    if 0 < i && i < cs.length - 1 then (String.mk (cs.take i), String.mk (cs.drop i))
    else (name, "")
  | none => (name, "")

/-- str.replace removing every dot (used for the format field). -/
def stripDots (s : String) : String := String.mk (s.toList.filter (fun c => !(c == '.')))

/-- GeoDataStore.LAYER_EXTENSIONS. -/
def LAYER_EXTENSIONS : List String :=
  [(".shp"), (".geojson"), (".gpkg"), (".kml"), (".gml"), (".json")]

/-- GeoDataStore.DOC_EXTENSIONS. -/
def DOC_EXTENSIONS : List String :=
  [(".pdf"), (".docx"), (".doc"), (".txt"), (".md"), (".csv"), (".xlsx")]

/-- GeoDataStore.MAP_EXTENSIONS. -/
def MAP_EXTENSIONS : List String :=
  [(".qgz"), (".qgs"), (".qml"), (".sld")]

/-- LayerInfo (src lines 19-31): catalog entry of one geospatial layer. The
materialized handle gdf is the identity number allocated when it was parsed. -/
structure LayerInfo where
  name : String
  path : List String
  format : String
  geometry_type : Option String := none
  crs : Option String := none
  feature_count : Nat := 0
  columns : List String := []
  bounds : Option (Int × Int × Int × Int) := none
  loaded : Bool := false
  gdf : Option Nat := none
deriving DecidableEq, Repr

/-- DocumentInfo (src lines 47-55). -/
structure DocumentInfo where
  name : String
  path : List String
  format : String
  size_kb : Nat := 0
  content_preview : String := ""
  extracted_text : Option String := none
deriving DecidableEq, Repr

/-- GeoDataStore._analyze_layer: full metadata on success, a degraded entry
of name and format only when any read raises. It always yields an entry. -/
def analyze_layer (e : Entry) : LayerInfo :=
  let stem := (stemSuffix (fileNameOf e)).1
  let suf := (stemSuffix (fileNameOf e)).2
  match e.analyze with
  | some m =>
    { name := stem, path := e.path, format := stripDots (lowerStr suf),
      geometry_type := m.geometry_type, crs := m.crs,
      feature_count := m.feature_count, columns := m.columns, bounds := m.bounds }
  | none => { name := stem, path := e.path, format := stripDots (lowerStr suf) }

/-- GeoDataStore._scan_layers: walk the files, keep layer extensions, skip a
second .shp with an already-processed base name, and key entries by stem. -/
def scan_layers_aux : List Entry → List String → List (String × LayerInfo) →
    List (String × LayerInfo)
  | [], _, acc => acc
  | e :: rest, processed, acc =>
    if LAYER_EXTENSIONS.contains (lowerStr (stemSuffix (fileNameOf e)).2) then
      if lowerStr (stemSuffix (fileNameOf e)).2 == (".shp") then
        if processed.contains (stemSuffix (fileNameOf e)).1 then
          scan_layers_aux rest processed acc
        else
          scan_layers_aux rest ((stemSuffix (fileNameOf e)).1 :: processed)
            (dictSet acc (stemSuffix (fileNameOf e)).1 (analyze_layer e))
      else
        scan_layers_aux rest processed
          (dictSet acc (stemSuffix (fileNameOf e)).1 (analyze_layer e))
    else scan_layers_aux rest processed acc

/-- The layer scan over a folder listing, from an empty processed set. -/
def scan_layers (files : List Entry) : List (String × LayerInfo) :=
  scan_layers_aux files [] []

/-- DocumentInfo built by _scan_documents for one file. -/
def mkDocInfo (e : Entry) : DocumentInfo :=
  { name := (stemSuffix (fileNameOf e)).1, path := e.path,
    format := stripDots (lowerStr (stemSuffix (fileNameOf e)).2), size_kb := e.sizeKB }

/-- GeoDataStore._scan_documents: files with document extensions, keyed by
stem. -/
def scan_documents_aux : List Entry → List (String × DocumentInfo) →
    List (String × DocumentInfo)
  | [], acc => acc
  | e :: rest, acc =>
    if DOC_EXTENSIONS.contains (lowerStr (stemSuffix (fileNameOf e)).2) && e.isFile then
      scan_documents_aux rest (dictSet acc (stemSuffix (fileNameOf e)).1 (mkDocInfo e))
    else scan_documents_aux rest acc

/-- The document scan over a folder listing. -/
def scan_documents (files : List Entry) : List (String × DocumentInfo) :=
  scan_documents_aux files []

/-- GeoDataStore._scan_maps: map-project extensions, stem mapped to path. -/
def scan_maps_aux : List Entry → List (String × List String) →
    List (String × List String)
  | [], acc => acc
  | e :: rest, acc =>
    if MAP_EXTENSIONS.contains (lowerStr (stemSuffix (fileNameOf e)).2) then
      scan_maps_aux rest (dictSet acc (stemSuffix (fileNameOf e)).1 e.path)
    else scan_maps_aux rest acc

/-- The map-project scan over a folder listing. -/
def scan_maps (files : List Entry) : List (String × List String) :=
  scan_maps_aux files []

/-- Whether root/sub exists on disk. -/
def subExists (disk : FS) (sub : String) : Bool :=
  disk.entries.any (fun e => e.path == [sub])

/-- rglob of a first-level subfolder: the entries strictly below it. -/
def rglobSub (disk : FS) (sub : String) : List Entry :=
  disk.entries.filter (fun e =>
    match e.path with
    | s :: rest => s == sub && !rest.isEmpty
    | [] => false)

/-- _scan_folder folder choice: the dedicated subfolder when it exists, the
whole root otherwise. -/
def folderFiles (disk : FS) (sub : String) : List Entry :=
  if subExists disk sub then rglobSub disk sub else disk.entries

/-- GeoDataStore (src lines 58-75): the catalog state. The observer list and
datetime of the last scan are external collaborators abstracted away. -/
structure GeoDataStore where
  root_path : Option String := none
  layers : List (String × LayerInfo) := []
  documents : List (String × DocumentInfo) := []
  maps : List (String × List String) := []
  is_connected : Bool := false
deriving DecidableEq, Repr

/-- The scan summary connect reports. -/
structure ScanSummary where
  capas : Nat
  documentos : Nat
  mapas : Nat
deriving DecidableEq, Repr

/-- The dictionary connect returns. -/
structure ConnectResult where
  success : Bool
  error : Option String := none
  summary : Option ScanSummary := none
deriving DecidableEq, Repr

/-- GeoDataStore.connect (src lines 77-105): fail when the root is missing;
otherwise reset the three entry dicts, rescan, and report counts. -/
def connect (st : GeoDataStore) (path : String) (disk : FS) :
    GeoDataStore × ConnectResult :=
  if disk.rootExists then
    let layers := scan_layers (folderFiles disk ("capas"))
    let documents := scan_documents (folderFiles disk ("documentos"))
    let maps := scan_maps (folderFiles disk ("mapas"))
    let st1 := { st with
      root_path := some path, layers := layers,
      documents := documents, maps := maps, is_connected := true }
    let summ : ScanSummary :=
      { capas := layers.length, documentos := documents.length, mapas := maps.length }
    (st1, { success := true, summary := some summ })
  else
    (st, { success := false, error := some (("La carpeta no existe: ") ++ path) })

/-- Allocator of materialized-handle identities: gpd.read_file in load_layer
returns a fresh object, so each successful parse takes the next number. -/
structure HandleWorld where
  nextHandle : Nat
deriving DecidableEq, Repr

/-- Whether gpd.read_file(path) succeeds against the current disk. -/
def diskRead (disk : FS) (path : List String) : Bool :=
  disk.entries.any (fun e => e.path == path && e.loadOk)

/-- GeoDataStore.load_layer (src lines 214-234): unknown names yield none;
a cached handle is returned as is; otherwise parse, cache and mark loaded on
success, and swallow the failure (returning none, state untouched) otherwise. -/
def load_layer (st : GeoDataStore) (disk : FS) (w : HandleWorld) (name : String) :
    Option Nat × GeoDataStore × HandleWorld :=
  match dictGet st.layers name with
  | none => (none, st, w)
  | some layer =>
    match layer.gdf with
    | some h => (some h, st, w)
    | none =>
      if diskRead disk layer.path then
        let h := w.nextHandle
        (some h,
         { st with layers := dictSet st.layers name { layer with gdf := some h, loaded := true } },
         ⟨h + 1⟩)
      else (none, st, w)

/-- Helper fold of load_all_layers over the key list. -/
def loadAllAux (disk : FS) : List String → GeoDataStore → HandleWorld →
    List (String × Nat) × GeoDataStore × HandleWorld
  | [], st, w => ([], st, w)
  | n :: rest, st, w =>
    match load_layer st disk w n with
    | (some h, st1, w1) =>
      match loadAllAux disk rest st1 w1 with
      | (acc, st2, w2) => ((n, h) :: acc, st2, w2)
    | (none, st1, w1) => loadAllAux disk rest st1 w1

/-- GeoDataStore.load_all_layers (src lines 236-243): best effort over every
catalog name, skipping failures. -/
def load_all_layers (st : GeoDataStore) (disk : FS) (w : HandleWorld) :
    List (String × Nat) × GeoDataStore × HandleWorld :=
  loadAllAux disk (keysOf st.layers) st w

/-- The dictionary get_summary returns (src lines 297-307). -/
structure StoreSummary where
  connected : Bool
  root_path : Option String
  total_capas : Nat
  total_documentos : Nat
  total_mapas : Nat
  capas_cargadas : Nat
deriving DecidableEq, Repr

/-- GeoDataStore.get_summary: totals per kind and the loaded-layer count. -/
def get_summary (st : GeoDataStore) : StoreSummary :=
  { connected := st.is_connected, root_path := st.root_path,
    total_capas := st.layers.length, total_documentos := st.documents.length,
    total_mapas := st.maps.length,
    capas_cargadas := st.layers.countP (fun p => p.2.loaded) }

/-- GeoDataStore.get_layer_names. -/
def get_layer_names (st : GeoDataStore) : List String := keysOf st.layers

/-! Spec-side vocabulary used to state the counting claims, written from the
claims' own words: the files of each category in a listing and the number of
distinct basenames among them. -/

/-- The layer files of a listing (layer extension, as the scan filters). -/
def layerFilesOf (files : List Entry) : List Entry :=
  files.filter (fun e => LAYER_EXTENSIONS.contains (lowerStr (stemSuffix (fileNameOf e)).2))

/-- The document files of a listing. -/
def docFilesOf (files : List Entry) : List Entry :=
  files.filter (fun e =>
    DOC_EXTENSIONS.contains (lowerStr (stemSuffix (fileNameOf e)).2) && e.isFile)

/-- The map-project files of a listing. -/
def mapFilesOf (files : List Entry) : List Entry :=
  files.filter (fun e => MAP_EXTENSIONS.contains (lowerStr (stemSuffix (fileNameOf e)).2))

/-- The basenames (stems) of a listing, in order. -/
def stemList (files : List Entry) : List String :=
  files.map (fun e => (stemSuffix (fileNameOf e)).1)

/-- The number of distinct strings in a list. -/
def distinctCount (l : List String) : Nat := l.dedup.length

/-- The invariant of claim C10: a layer entry is flagged loaded exactly when
it holds a cached materialized handle. -/
def StoreInv (st : GeoDataStore) : Prop :=
  ∀ p ∈ st.layers, p.2.loaded = p.2.gdf.isSome

/-- Every layer file of the listing with basename s belongs to the shapefile
family (the hypothesis of the first-seen-wins clause of C5). -/
def AllShpStem (files : List Entry) (s : String) : Prop :=
  ∀ e ∈ files, LAYER_EXTENSIONS.contains (lowerStr (stemSuffix (fileNameOf e)).2) = true →
    (stemSuffix (fileNameOf e)).1 = s → lowerStr (stemSuffix (fileNameOf e)).2 = (".shp")

/-- A .shp file with basename s. -/
def isShpNamed (s : String) (e : Entry) : Bool :=
  ((stemSuffix (fileNameOf e)).1 == s) && (lowerStr (stemSuffix (fileNameOf e)).2 == (".shp"))

/-! Concrete fixtures used by the witnesses and counterexamples. -/

/-- Script whose text is "import os". -/
def sPolicy : List Stmt := [Stmt.importStmt ("os")]

/-- Script whose text is "folium = gpd": it rebinds the namespace name
folium without raising. -/
def sRebind : List Stmt := [Stmt.assignVar ("folium") ("gpd")]

/-- Script building two maps and naming the second one mapa. -/
def sTwoMaps : List Stmt := [Stmt.newMap ("m1"), Stmt.newMap ("mapa")]

/-- Script that rebinds folium to the integer 5 and then raises. -/
def sRebindRaise : List Stmt := [Stmt.assignLit ("folium") (Lit.lint 5), Stmt.divZero]

/-- Script that prints hola and then raises ZeroDivisionError. -/
def sPrintRaise : List Stmt := [Stmt.printStmt ("hola"), Stmt.divZero]

/-- The run state sPrintRaise reaches at its raise. -/
def stPrintRaise : RunState :=
  { ns := initGlobals engEmpty, out := "hola\n", foliumMapAttr := Value.captureFun,
    genMaps := [], nextId := 0 }

/-- The ZeroDivisionError 1/0 raises. -/
def zdExc : PyExc := ⟨"ZeroDivisionError", ("division by zero")⟩

/-- An empty store. -/
def store0 : GeoDataStore := {}

/-- Metadata of the sample rios layer. -/
def mRios : Meta :=
  { geometry_type := some ("LineString"), crs := some ("EPSG:4326"),
    feature_count := 3, columns := [("nombre")], bounds := some (0, 0, 1, 1) }

/-- First copy of the rios shapefile, analyzable and loadable. -/
def eShpA : Entry :=
  { path := [("a"), ("rios.shp")], isFile := true, sizeKB := 5,
    analyze := some mRios, loadOk := true }

/-- Second copy of the rios shapefile under another subfolder. -/
def eShpB : Entry :=
  { path := [("b"), ("rios.shp")], isFile := true, sizeKB := 6,
    analyze := none, loadOk := false }

/-- A pdf document named informe. -/
def ePdf : Entry :=
  { path := [("informe.pdf")], isFile := true, sizeKB := 10, analyze := none, loadOk := false }

/-- A txt document also named informe. -/
def eTxt : Entry :=
  { path := [("informe.txt")], isFile := true, sizeKB := 2, analyze := none, loadOk := false }

/-- A QGIS project file. -/
def eQgz : Entry :=
  { path := [("proyecto.qgz")], isFile := true, sizeKB := 1, analyze := none, loadOk := false }

/-- A knowledge-base root with a duplicated shapefile basename, one document
and one map project, and no dedicated subfolders. -/
def fsDemo : FS := { rootExists := true, entries := [eShpA, eShpB, ePdf, eTxt, eQgz] }

/-- A root whose two document files share the basename informe. -/
def fsDocs : FS := { rootExists := true, entries := [ePdf, eTxt] }

/-- A catalog entry whose backing file parses. -/
def liGood : LayerInfo := { name := ("good"), path := [("good.geojson")], format := ("geojson") }

/-- A store holding only the good entry, not yet materialized. -/
def stGood : GeoDataStore :=
  { root_path := some ("kb"), layers := [(("good"), liGood)], is_connected := true }

/-- A disk on which good.geojson parses. -/
def diskGood : FS :=
  { rootExists := true,
    entries := [{ path := [("good.geojson")], isFile := true, sizeKB := 3,
                  analyze := none, loadOk := true }] }

/-- stGood after good was materialized as handle 5. -/
def stGoodLoaded : GeoDataStore :=
  { stGood with
    layers := dictSet stGood.layers ("good") { liGood with gdf := some 5, loaded := true } }

/-- A catalog entry whose backing file fails to parse. -/
def liBad : LayerInfo := { name := ("bad"), path := [("bad.geojson")], format := ("geojson") }

/-- A store holding only the bad entry. -/
def stBad : GeoDataStore :=
  { root_path := some ("kb"), layers := [(("bad"), liBad)], is_connected := true }

/-- A disk on which bad.geojson exists but does not parse. -/
def diskBad : FS :=
  { rootExists := true,
    entries := [{ path := [("bad.geojson")], isFile := true, sizeKB := 3,
                  analyze := none, loadOk := false }] }

/-- A store carrying a stale materialized entry from an earlier scan. -/
def stStale : GeoDataStore :=
  { root_path := some ("kb"),
    layers := [(("old"), { name := ("old"), path := [("old.geojson")], format := ("geojson"),
                           loaded := true, gdf := some 0 })],
    is_connected := true }

/-- A store satisfying the loaded-iff-cached invariant with one loaded and
one unloaded entry. -/
def stInvDemo : GeoDataStore :=
  { root_path := some ("kb"),
    layers := [(("a"), { name := ("a"), path := [("a.geojson")], format := ("geojson"),
                         loaded := true, gdf := some 3 }),
               (("good"), liGood)],
    is_connected := true }

/-! Helper lemmas about the dict operations. -/

theorem dictGet_dictSet_self {α : Type} (d : List (String × α)) (k : String) (v : α) :
    dictGet (dictSet d k v) k = some v := by
  induction d with
  | nil => simp [dictSet, dictGet]
  | cons p rest ih =>
    obtain ⟨k0, v0⟩ := p
    by_cases h : k0 = k
    · simp [dictSet, dictGet, h]
    · simp [dictSet, dictGet, h, ih]

theorem dictGet_dictSet_ne {α : Type} (d : List (String × α)) (k k2 : String) (v : α)
    (hne : k2 ≠ k) : dictGet (dictSet d k v) k2 = dictGet d k2 := by
  induction d with
  | nil => simp [dictSet, dictGet, Ne.symm hne]
  | cons p rest ih =>
    obtain ⟨k0, v0⟩ := p
    by_cases h : k0 = k
    · subst h
      simp [dictSet, dictGet, Ne.symm hne]
    · simp [dictSet, dictGet, h, ih]

theorem keysOf_cons {α : Type} (p : String × α) (d : List (String × α)) :
    keysOf (p :: d) = p.1 :: keysOf d := rfl

theorem length_keysOf {α : Type} (d : List (String × α)) :
    (keysOf d).length = d.length := by
  simp [keysOf]

theorem keysOf_dictSet {α : Type} (d : List (String × α)) (k : String) (v : α) :
    keysOf (dictSet d k v) = if k ∈ keysOf d then keysOf d else keysOf d ++ [k] := by
  induction d with
  | nil => simp [dictSet, keysOf]
  | cons p rest ih =>
    obtain ⟨k0, v0⟩ := p
    by_cases h : k0 = k
    · subst h
      simp [dictSet, keysOf_cons]
    · rw [dictSet, if_neg h, keysOf_cons, keysOf_cons, ih]
      by_cases hm : k ∈ keysOf rest
      · rw [if_pos hm, if_pos (List.mem_cons_of_mem _ hm)]
      · have hnotin : k ∉ k0 :: keysOf rest := by
          rw [List.mem_cons]
          rintro (rfl | hk)
          · exact h rfl
          · exact hm hk
        rw [if_neg hm, if_neg hnotin, List.cons_append]

theorem mem_keysOf_dictSet {α : Type} (d : List (String × α)) (k a : String) (v : α) :
    a ∈ keysOf (dictSet d k v) ↔ a = k ∨ a ∈ keysOf d := by
  rw [keysOf_dictSet]
  by_cases hm : k ∈ keysOf d
  · rw [if_pos hm]
    constructor
    · exact fun h => Or.inr h
    · rintro (rfl | h)
      · exact hm
      · exact h
  · rw [if_neg hm]
    simp [List.mem_append, or_comm]

theorem length_dictSet {α : Type} (d : List (String × α)) (k : String) (v : α) :
    (dictSet d k v).length = if k ∈ keysOf d then d.length else d.length + 1 := by
  have h1 : (dictSet d k v).length = (keysOf (dictSet d k v)).length :=
    (length_keysOf _).symm
  rw [h1, keysOf_dictSet]
  by_cases hm : k ∈ keysOf d
  · rw [if_pos hm, if_pos hm, length_keysOf]
  · rw [if_neg hm, if_neg hm]
    simp [length_keysOf]

theorem nodup_keysOf_dictSet {α : Type} (d : List (String × α)) (k : String) (v : α)
    (h : (keysOf d).Nodup) : (keysOf (dictSet d k v)).Nodup := by
  rw [keysOf_dictSet]
  by_cases hm : k ∈ keysOf d
  · simpa [hm] using h
  · rw [if_neg hm]
    simp [List.nodup_append, h, hm]

theorem toFinset_keysOf_dictSet {α : Type} (d : List (String × α)) (k : String) (v : α) :
    (keysOf (dictSet d k v)).toFinset = insert k (keysOf d).toFinset := by
  ext a
  simp [mem_keysOf_dictSet]

theorem mem_dictSet {α : Type} (d : List (String × α)) (k : String) (v : α)
    (p : String × α) : p ∈ dictSet d k v → p = (k, v) ∨ p ∈ d := by
  induction d with
  | nil =>
    intro hp
    simpa [dictSet] using hp
  | cons q rest ih =>
    obtain ⟨k0, v0⟩ := q
    intro hp
    by_cases h : k0 = k
    · rw [dictSet, if_pos h] at hp
      rcases List.mem_cons.mp hp with h2 | h2
      · exact Or.inl h2
      · exact Or.inr (List.mem_cons_of_mem _ h2)
    · rw [dictSet, if_neg h] at hp
      rcases List.mem_cons.mp hp with h2 | h2
      · exact Or.inr (h2 ▸ List.mem_cons_self _ _)
      · rcases ih h2 with h3 | h3
        · exact Or.inl h3
        · exact Or.inr (List.mem_cons_of_mem _ h3)

theorem dictGet_mem {α : Type} (d : List (String × α)) (k : String) (v : α) :
    dictGet d k = some v → (k, v) ∈ d := by
  induction d with
  | nil =>
    intro h
    simp [dictGet] at h
  | cons q rest ih =>
    obtain ⟨k0, v0⟩ := q
    intro h
    by_cases hk : k0 = k
    · subst hk
      rw [dictGet, if_pos rfl] at h
      obtain rfl : v0 = v := by simpa using h
      exact List.mem_cons_self _ _
    · rw [dictGet, if_neg hk] at h
      exact List.mem_cons_of_mem _ (ih h)

theorem countP_congr_on {α : Type} (l : List α) (p q : α → Bool)
    (h : ∀ x ∈ l, p x = q x) : l.countP p = l.countP q := by
  induction l with
  | nil => simp
  | cons a rest ih =>
    have ha := h a (List.mem_cons_self _ _)
    have hr := ih (fun x hx => h x (List.mem_cons_of_mem _ hx))
    simp [List.countP_cons, ha, hr]

/-! Helper lemmas about the three scans. -/

theorem analyze_layer_fresh (e : Entry) :
    (analyze_layer e).gdf = none ∧ (analyze_layer e).loaded = false := by
  cases h : e.analyze <;> simp [analyze_layer, h]

theorem scan_layers_aux_fresh :
    ∀ (files : List Entry) (processed : List String) (acc : List (String × LayerInfo)),
      (∀ p ∈ acc, p.2.gdf = none ∧ p.2.loaded = false) →
      ∀ p ∈ scan_layers_aux files processed acc, p.2.gdf = none ∧ p.2.loaded = false := by
  intro files
  induction files with
  | nil =>
    intro processed acc hacc
    simpa [scan_layers_aux] using hacc
  | cons e rest ih =>
    intro processed acc hacc
    have hset : ∀ p ∈ dictSet acc (stemSuffix (fileNameOf e)).1 (analyze_layer e),
        p.2.gdf = none ∧ p.2.loaded = false := by
      intro p hp
      rcases mem_dictSet _ _ _ _ hp with rfl | hm
      · exact analyze_layer_fresh e
      · exact hacc p hm
    simp only [scan_layers_aux]
    by_cases h1 : LAYER_EXTENSIONS.contains (lowerStr (stemSuffix (fileNameOf e)).2) = true
    · rw [if_pos h1]
      by_cases h2 : (lowerStr (stemSuffix (fileNameOf e)).2 == (".shp")) = true
      · rw [if_pos h2]
        by_cases h3 : processed.contains (stemSuffix (fileNameOf e)).1 = true
        · rw [if_pos h3]
          exact ih _ _ hacc
        · rw [if_neg h3]
          exact ih _ _ hset
      · rw [if_neg h2]
        exact ih _ _ hset
    · rw [if_neg h1]
      exact ih _ _ hacc

theorem scan_layers_aux_keys :
    ∀ (files : List Entry) (processed : List String) (acc : List (String × LayerInfo)),
      (keysOf acc).Nodup → (∀ s ∈ processed, s ∈ keysOf acc) →
      (keysOf (scan_layers_aux files processed acc)).Nodup ∧
      (keysOf (scan_layers_aux files processed acc)).toFinset =
        (keysOf acc).toFinset ∪ (stemList (layerFilesOf files)).toFinset := by
  intro files
  induction files with
  | nil =>
    intro processed acc hnd hproc
    refine ⟨by simpa [scan_layers_aux] using hnd, ?_⟩
    simp [scan_layers_aux, layerFilesOf, stemList]
  | cons e rest ih =>
    intro processed acc hnd hproc
    simp only [scan_layers_aux]
    by_cases h1 : LAYER_EXTENSIONS.contains (lowerStr (stemSuffix (fileNameOf e)).2) = true
    · rw [if_pos h1]
      have h1m : lowerStr (stemSuffix (fileNameOf e)).2 ∈ LAYER_EXTENSIONS := by
        simpa using h1
      have hfil : stemList (layerFilesOf (e :: rest)) =
          (stemSuffix (fileNameOf e)).1 :: stemList (layerFilesOf rest) := by
        simp [layerFilesOf, stemList, List.filter_cons, h1m]
      rw [hfil, List.toFinset_cons, Finset.union_insert]
      by_cases h2 : (lowerStr (stemSuffix (fileNameOf e)).2 == (".shp")) = true
      · rw [if_pos h2]
        by_cases h3 : processed.contains (stemSuffix (fileNameOf e)).1 = true
        · rw [if_pos h3]
          have hmem : (stemSuffix (fileNameOf e)).1 ∈ keysOf acc :=
            hproc _ (by simpa using h3)
          obtain ⟨hn, hf⟩ := ih processed acc hnd hproc
          refine ⟨hn, ?_⟩
          rw [hf]
          exact (Finset.insert_eq_self.mpr
            (Finset.mem_union_left _ (List.mem_toFinset.mpr hmem))).symm
        · rw [if_neg h3]
          have hproc2 : ∀ s ∈ (stemSuffix (fileNameOf e)).1 :: processed,
              s ∈ keysOf (dictSet acc (stemSuffix (fileNameOf e)).1 (analyze_layer e)) := by
            intro s hs
            rcases List.mem_cons.mp hs with rfl | hs2
            · exact (mem_keysOf_dictSet _ _ _ _).mpr (Or.inl rfl)
            · exact (mem_keysOf_dictSet _ _ _ _).mpr (Or.inr (hproc s hs2))
          obtain ⟨hn, hf⟩ := ih _ _ (nodup_keysOf_dictSet _ _ _ hnd) hproc2
          refine ⟨hn, ?_⟩
          rw [hf, toFinset_keysOf_dictSet, Finset.insert_union]
      · rw [if_neg h2]
        have hproc2 : ∀ s ∈ processed,
            s ∈ keysOf (dictSet acc (stemSuffix (fileNameOf e)).1 (analyze_layer e)) :=
          fun s hs => (mem_keysOf_dictSet _ _ _ _).mpr (Or.inr (hproc s hs))
        obtain ⟨hn, hf⟩ := ih _ _ (nodup_keysOf_dictSet _ _ _ hnd) hproc2
        refine ⟨hn, ?_⟩
        rw [hf, toFinset_keysOf_dictSet, Finset.insert_union]
    · rw [if_neg h1]
      have h1m : lowerStr (stemSuffix (fileNameOf e)).2 ∉ LAYER_EXTENSIONS := by
        simpa using h1
      have hfil : stemList (layerFilesOf (e :: rest)) = stemList (layerFilesOf rest) := by
        simp [layerFilesOf, stemList, List.filter_cons, h1m]
      rw [hfil]
      exact ih processed acc hnd hproc

theorem scan_layers_length (files : List Entry) :
    (scan_layers files).length = distinctCount (stemList (layerFilesOf files)) := by
  obtain ⟨hnd, hfs⟩ := scan_layers_aux_keys files [] []
    (by simp [keysOf]) (by intro s hs; simp at hs)
  have h0 : (keysOf ([] : List (String × LayerInfo))).toFinset = (∅ : Finset String) := by
    simp [keysOf]
  rw [h0, Finset.empty_union] at hfs
  simp only [scan_layers]
  rw [← length_keysOf, ← List.toFinset_card_of_nodup hnd, hfs, List.card_toFinset]
  rfl

theorem scan_documents_aux_keys :
    ∀ (files : List Entry) (acc : List (String × DocumentInfo)),
      (keysOf acc).Nodup →
      (keysOf (scan_documents_aux files acc)).Nodup ∧
      (keysOf (scan_documents_aux files acc)).toFinset =
        (keysOf acc).toFinset ∪ (stemList (docFilesOf files)).toFinset := by
  intro files
  induction files with
  | nil =>
    intro acc hnd
    refine ⟨by simpa [scan_documents_aux] using hnd, ?_⟩
    simp [scan_documents_aux, docFilesOf, stemList]
  | cons e rest ih =>
    intro acc hnd
    simp only [scan_documents_aux]
    by_cases h1 : (DOC_EXTENSIONS.contains (lowerStr (stemSuffix (fileNameOf e)).2)
        && e.isFile) = true
    · rw [if_pos h1]
      have hfil : stemList (docFilesOf (e :: rest)) =
          (stemSuffix (fileNameOf e)).1 :: stemList (docFilesOf rest) := by
        simp only [docFilesOf, stemList, List.filter_cons]
        rw [if_pos h1]
        rfl
      rw [hfil, List.toFinset_cons, Finset.union_insert]
      obtain ⟨hn, hf⟩ := ih _ (nodup_keysOf_dictSet _ _ _ hnd)
      refine ⟨hn, ?_⟩
      rw [hf, toFinset_keysOf_dictSet, Finset.insert_union]
    · rw [if_neg h1]
      have hfil : stemList (docFilesOf (e :: rest)) = stemList (docFilesOf rest) := by
        simp only [docFilesOf, stemList, List.filter_cons]
        rw [if_neg h1]
      rw [hfil]
      exact ih acc hnd

theorem scan_documents_length (files : List Entry) :
    (scan_documents files).length = distinctCount (stemList (docFilesOf files)) := by
  obtain ⟨hnd, hfs⟩ := scan_documents_aux_keys files [] (by simp [keysOf])
  have h0 : (keysOf ([] : List (String × DocumentInfo))).toFinset = (∅ : Finset String) := by
    simp [keysOf]
  rw [h0, Finset.empty_union] at hfs
  simp only [scan_documents]
  rw [← length_keysOf, ← List.toFinset_card_of_nodup hnd, hfs, List.card_toFinset]
  rfl

theorem scan_maps_aux_keys :
    ∀ (files : List Entry) (acc : List (String × List String)),
      (keysOf acc).Nodup →
      (keysOf (scan_maps_aux files acc)).Nodup ∧
      (keysOf (scan_maps_aux files acc)).toFinset =
        (keysOf acc).toFinset ∪ (stemList (mapFilesOf files)).toFinset := by
  intro files
  induction files with
  | nil =>
    intro acc hnd
    refine ⟨by simpa [scan_maps_aux] using hnd, ?_⟩
    simp [scan_maps_aux, mapFilesOf, stemList]
  | cons e rest ih =>
    intro acc hnd
    simp only [scan_maps_aux]
    by_cases h1 : MAP_EXTENSIONS.contains (lowerStr (stemSuffix (fileNameOf e)).2) = true
    · rw [if_pos h1]
      have h1m : lowerStr (stemSuffix (fileNameOf e)).2 ∈ MAP_EXTENSIONS := by
        simpa using h1
      have hfil : stemList (mapFilesOf (e :: rest)) =
          (stemSuffix (fileNameOf e)).1 :: stemList (mapFilesOf rest) := by
        simp [mapFilesOf, stemList, List.filter_cons, h1m]
      rw [hfil, List.toFinset_cons, Finset.union_insert]
      obtain ⟨hn, hf⟩ := ih _ (nodup_keysOf_dictSet _ _ _ hnd)
      refine ⟨hn, ?_⟩
      rw [hf, toFinset_keysOf_dictSet, Finset.insert_union]
    · rw [if_neg h1]
      have h1m : lowerStr (stemSuffix (fileNameOf e)).2 ∉ MAP_EXTENSIONS := by
        simpa using h1
      have hfil : stemList (mapFilesOf (e :: rest)) = stemList (mapFilesOf rest) := by
        simp [mapFilesOf, stemList, List.filter_cons, h1m]
      rw [hfil]
      exact ih acc hnd

theorem scan_maps_length (files : List Entry) :
    (scan_maps files).length = distinctCount (stemList (mapFilesOf files)) := by
  obtain ⟨hnd, hfs⟩ := scan_maps_aux_keys files [] (by simp [keysOf])
  have h0 : (keysOf ([] : List (String × List String))).toFinset = (∅ : Finset String) := by
    simp [keysOf]
  rw [h0, Finset.empty_union] at hfs
  simp only [scan_maps]
  rw [← length_keysOf, ← List.toFinset_card_of_nodup hnd, hfs, List.card_toFinset]
  rfl

theorem AllShpStem_of_cons {e : Entry} {rest : List Entry} {s : String}
    (h : AllShpStem (e :: rest) s) : AllShpStem rest s :=
  fun e2 he2 => h e2 (List.mem_cons_of_mem _ he2)

theorem scan_layers_aux_stable :
    ∀ (files : List Entry) (processed : List String) (acc : List (String × LayerInfo))
      (s : String) (v : LayerInfo),
      AllShpStem files s → s ∈ processed → dictGet acc s = some v →
      dictGet (scan_layers_aux files processed acc) s = some v := by
  intro files
  induction files with
  | nil =>
    intro processed acc s v _ _ hget
    simpa [scan_layers_aux] using hget
  | cons e rest ih =>
    intro processed acc s v hall hmem hget
    simp only [scan_layers_aux]
    by_cases h1 : LAYER_EXTENSIONS.contains (lowerStr (stemSuffix (fileNameOf e)).2) = true
    · rw [if_pos h1]
      by_cases h2 : (lowerStr (stemSuffix (fileNameOf e)).2 == (".shp")) = true
      · rw [if_pos h2]
        by_cases h3 : processed.contains (stemSuffix (fileNameOf e)).1 = true
        · rw [if_pos h3]
          exact ih _ _ _ _ (AllShpStem_of_cons hall) hmem hget
        · rw [if_neg h3]
          have hne : (stemSuffix (fileNameOf e)).1 ≠ s := by
            intro hcontra
            exact h3 (by simpa [hcontra] using hmem)
          have hget2 : dictGet (dictSet acc (stemSuffix (fileNameOf e)).1 (analyze_layer e)) s
              = some v := by
            rw [dictGet_dictSet_ne _ _ _ _ (Ne.symm hne)]
            exact hget
          exact ih _ _ _ _ (AllShpStem_of_cons hall)
            (List.mem_cons_of_mem _ hmem) hget2
      · rw [if_neg h2]
        have hne : (stemSuffix (fileNameOf e)).1 ≠ s := by
          intro hcontra
          have hsuf := hall e (List.mem_cons_self _ _) h1 hcontra
          exact h2 (by simp [hsuf])
        have hget2 : dictGet (dictSet acc (stemSuffix (fileNameOf e)).1 (analyze_layer e)) s
            = some v := by
          rw [dictGet_dictSet_ne _ _ _ _ (Ne.symm hne)]
          exact hget
        exact ih _ _ _ _ (AllShpStem_of_cons hall) hmem hget2
    · rw [if_neg h1]
      exact ih _ _ _ _ (AllShpStem_of_cons hall) hmem hget

theorem scan_layers_aux_first :
    ∀ (files : List Entry) (processed : List String) (acc : List (String × LayerInfo))
      (s : String),
      AllShpStem files s → s ∉ processed → dictGet acc s = none →
      dictGet (scan_layers_aux files processed acc) s =
        (files.find? (isShpNamed s)).map analyze_layer := by
  intro files
  induction files with
  | nil =>
    intro processed acc s _ _ hget
    simpa [scan_layers_aux, List.find?] using hget
  | cons e rest ih =>
    intro processed acc s hall hnp hget
    simp only [scan_layers_aux]
    by_cases h1 : LAYER_EXTENSIONS.contains (lowerStr (stemSuffix (fileNameOf e)).2) = true
    · rw [if_pos h1]
      by_cases h2 : (lowerStr (stemSuffix (fileNameOf e)).2 == (".shp")) = true
      · rw [if_pos h2]
        by_cases h3 : processed.contains (stemSuffix (fileNameOf e)).1 = true
        · rw [if_pos h3]
          have hne : (stemSuffix (fileNameOf e)).1 ≠ s := by
            intro hcontra
            exact hnp (by simpa [← hcontra] using h3)
          have hpred : ¬ isShpNamed s e = true := by
            simp [isShpNamed, hne]
          rw [List.find?_cons_of_neg _ hpred]
          exact ih _ _ _ (AllShpStem_of_cons hall) hnp hget
        · rw [if_neg h3]
          by_cases hstem : (stemSuffix (fileNameOf e)).1 = s
          · have hpred : isShpNamed s e = true := by
              simp [isShpNamed, hstem, h2]
            rw [List.find?_cons_of_pos _ hpred]
            subst hstem
            exact scan_layers_aux_stable rest _ _ _ _ (AllShpStem_of_cons hall)
              (List.mem_cons_self _ _) (dictGet_dictSet_self _ _ _)
          · have hpred : ¬ isShpNamed s e = true := by
              simp [isShpNamed, hstem]
            rw [List.find?_cons_of_neg _ hpred]
            have hnp2 : s ∉ (stemSuffix (fileNameOf e)).1 :: processed := by
              rw [List.mem_cons]
              rintro (rfl | hs)
              · exact hstem rfl
              · exact hnp hs
            have hget2 : dictGet (dictSet acc (stemSuffix (fileNameOf e)).1 (analyze_layer e)) s
                = none := by
              rw [dictGet_dictSet_ne _ _ _ _ (Ne.symm hstem)]
              exact hget
            exact ih _ _ _ (AllShpStem_of_cons hall) hnp2 hget2
      · rw [if_neg h2]
        have hne : (stemSuffix (fileNameOf e)).1 ≠ s := by
          intro hcontra
          have hsuf := hall e (List.mem_cons_self _ _) h1 hcontra
          exact h2 (by simp [hsuf])
        have hpred : ¬ isShpNamed s e = true := by
          simp [isShpNamed, hne]
        rw [List.find?_cons_of_neg _ hpred]
        have hget2 : dictGet (dictSet acc (stemSuffix (fileNameOf e)).1 (analyze_layer e)) s
            = none := by
          rw [dictGet_dictSet_ne _ _ _ _ (Ne.symm hne)]
          exact hget
        exact ih _ _ _ (AllShpStem_of_cons hall) hnp hget2
    · rw [if_neg h1]
      have hsufne : ¬ lowerStr (stemSuffix (fileNameOf e)).2 = (".shp") := by
        intro hsuf
        rw [hsuf] at h1
        exact h1 (by decide)
      have hpred : ¬ isShpNamed s e = true := by
        simp [isShpNamed, hsufne]
      rw [List.find?_cons_of_neg _ hpred]
      exact ih _ _ _ (AllShpStem_of_cons hall) hnp hget

/-! Helper lemmas about load_layer and load_all_layers. -/

theorem load_layer_inv (st : GeoDataStore) (disk : FS) (w : HandleWorld) (name : String)
    (h : StoreInv st) : StoreInv (load_layer st disk w name).2.1 := by
  cases hg : dictGet st.layers name with
  | none => simpa [load_layer, hg] using h
  | some layer =>
    cases hgdf : layer.gdf with
    | some h0 => simpa [load_layer, hg, hgdf] using h
    | none =>
      by_cases hd : diskRead disk layer.path = true
      · intro p hp
        simp only [load_layer, hg, hgdf, if_pos hd] at hp
        rcases mem_dictSet _ _ _ _ hp with rfl | hm
        · simp
        · exact h p hm
      · simpa [load_layer, hg, hgdf, hd] using h

theorem loadAllAux_inv (disk : FS) :
    ∀ (names : List String) (st : GeoDataStore) (w : HandleWorld),
      StoreInv st → StoreInv (loadAllAux disk names st w).2.1 := by
  intro names
  induction names with
  | nil =>
    intro st w h
    simpa [loadAllAux] using h
  | cons n rest ih =>
    intro st w h
    have h1 := load_layer_inv st disk w n h
    simp only [loadAllAux]
    rcases hl : load_layer st disk w n with ⟨g, st1, w1⟩
    rw [hl] at h1
    cases g with
    | some hdl =>
      rcases hAll : loadAllAux disk rest st1 w1 with ⟨acc2, st2, w2⟩
      have h2 := ih st1 w1 h1
      rw [hAll] at h2
      simpa [hAll] using h2
    | none =>
      have h2 := ih st1 w1 h1
      simpa using h2

/-! The claims. -/

/-- C1: a script whose text matches at least one deny pattern is rejected:
execute returns success=false with an error naming the matched pattern,
empty stdout, no maps, and neither the folium world nor the engine is
touched — the namespace is never built and the script never runs. -/
theorem policy_violation_rejects (eng : CodeExecutionEngine) (w : FoliumWorld)
    (script : List Stmt)
    (h : (FORBIDDEN_PATTERNS.any (fun p => reSearch p.2 (renderScript script))) = true) :
    ∃ pat, pat ∈ FORBIDDEN_PATTERNS ∧ reSearch pat.2 (renderScript script) = true ∧
      execute eng w script =
        (Except.ok (policyDict (("Operación no permitida detectada: ") ++ pat.1)), w, eng) ∧
      (policyDict (("Operación no permitida detectada: ") ++ pat.1)).success = false ∧
      (policyDict (("Operación no permitida detectada: ") ++ pat.1)).output = "" ∧
      (policyDict (("Operación no permitida detectada: ") ++ pat.1)).maps = [] := by
  have hsome : (FORBIDDEN_PATTERNS.find? (fun p => reSearch p.2 (renderScript script))).isSome := by
    rw [List.find?_isSome]
    obtain ⟨p, hp, hpp⟩ := List.any_eq_true.mp h
    exact ⟨p, hp, hpp⟩
  obtain ⟨pat, hfind⟩ := Option.isSome_iff_exists.mp hsome
  have hval : validate_code (renderScript script)
      = (false, ("Operación no permitida detectada: ") ++ pat.1) := by
    rw [validate_code, hfind]
  have hsearch : reSearch pat.2 (renderScript script) = true := by
    have hpp := List.find?_some hfind
    simpa using hpp
  refine ⟨pat, List.mem_of_find?_eq_some hfind, hsearch, ?_, rfl, rfl, rfl⟩
  simp only [execute, hval]

/-- Witness for C1 at the script whose text is "import os". -/
theorem policy_violation_rejects_witness :
    (FORBIDDEN_PATTERNS.any (fun p => reSearch p.2 (renderScript sPolicy))) = true ∧
    (∃ pat, pat ∈ FORBIDDEN_PATTERNS ∧ reSearch pat.2 (renderScript sPolicy) = true ∧
      execute engEmpty cleanWorld sPolicy =
        (Except.ok (policyDict (("Operación no permitida detectada: ") ++ pat.1)),
          cleanWorld, engEmpty) ∧
      (policyDict (("Operación no permitida detectada: ") ++ pat.1)).success = false ∧
      (policyDict (("Operación no permitida detectada: ") ++ pat.1)).output = "" ∧
      (policyDict (("Operación no permitida detectada: ") ++ pat.1)).maps = []) :=
  ⟨by decide, policy_violation_rejects engEmpty cleanWorld sPolicy (by decide)⟩

/-- C2 (code bug): the finally block restores folium.Map through the
script-mutable namespace binding. The script "folium = gpd" passes
validation and completes; execute returns a dictionary, yet the folium
module is left with the capture wrapper installed, so the interception
leaks into every later call. -/
theorem folium_rebind_leaks_patch :
    cleanWorld.MapAttr = Value.mapClass ∧
    (resOf (execute engEmpty cleanWorld sRebind)).isSome = true ∧
    (worldOf (execute engEmpty cleanWorld sRebind)).MapAttr = Value.captureFun := by
  refine ⟨rfl, ?_, ?_⟩ <;> decide

/-- C3 (code bug): a script that builds two maps and names the second one
mapa completes normally, but the namespace sweep calls isinstance against
the still-patched folium.Map (the capture function), which raises TypeError;
execute therefore reports failure with no primary artifact and no captured
maps instead of the documented success result. -/
theorem two_maps_isinstance_type_error :
    (resOf (execute engEmpty cleanWorld sTwoMaps)).map ExecResult.success = some false ∧
    (resOf (execute engEmpty cleanWorld sTwoMaps)).map ExecResult.maps = some [] ∧
    (resOf (execute engEmpty cleanWorld sTwoMaps)).map ExecResult.error =
      some (some (("TypeError: isinstance() arg 2 must be a type or tuple of types"))) ∧
    (resOf (execute engEmpty cleanWorld sTwoMaps)).map ExecResult.result = some Value.pyNone ∧
    (runStmts sTwoMaps (initRunState engEmpty)).2 = none := by
  refine ⟨?_, ?_, ?_, ?_, ?_⟩ <;> decide

/-- C4 counterexample: the script "folium = 5" then "1/0" raises
ZeroDivisionError during execution, but execute does not return the
documented failure dictionary — the finally-block restore raises
AttributeError on the rebound binding, so execute itself raises. -/
theorem rebind_raise_execute_raises :
    (runStmts sRebindRaise (initRunState engEmpty)).2 = some zdExc ∧
    excOf (execute engEmpty cleanWorld sRebindRaise) =
      some ⟨"AttributeError", ("int object has no attribute Map")⟩ := by
  refine ⟨?_, ?_⟩ <;> decide

/-- C4 amended: for every valid script that raises during execution and
leaves the namespace binding folium on an object accepting attribute
assignment, execute returns success=false with the exception kind and
message, the trace text, and stdout exactly as printed before the raise,
without itself raising. -/
theorem runtime_error_reported (eng : CodeExecutionEngine) (w : FoliumWorld)
    (script : List Stmt) (st1 : RunState) (e : PyExc)
    (hv : validate_code (renderScript script) = (true, ""))
    (hg : dictGet (initGlobals eng) ("folium") = some Value.foliumMod)
    (hrun : runStmts script (initRunState eng) = (st1, some e))
    (hfin : (setAttrMap ⟨st1.foliumMapAttr⟩ (dictGet st1.ns ("folium")) w.MapAttr).2 = none) :
    resOf (execute eng w script) = some (exceptDict e st1.out) ∧
    (exceptDict e st1.out).success = false ∧
    (exceptDict e st1.out).error = some (e.kind ++ (": ") ++ e.msg) ∧
    (exceptDict e st1.out).traceback = some (tracebackText e) ∧
    (exceptDict e st1.out).output = st1.out := by
  refine ⟨?_, rfl, rfl, rfl, rfl⟩
  have hrun2 : runStmts script
      { ns := initGlobals eng, out := "", foliumMapAttr := Value.captureFun,
        genMaps := [], nextId := 0 } = (st1, some e) := hrun
  have hinst : setAttrMap w (some Value.foliumMod) Value.captureFun
      = (⟨Value.captureFun⟩, none) := rfl
  simp only [execute, hv, executeBody, hg, hinst, hrun2, afterRun, hfin, resOf]

/-- Witness for C4 amended at the script that prints hola and divides by
zero. -/
theorem runtime_error_reported_witness :
    validate_code (renderScript sPrintRaise) = (true, "") ∧
    dictGet (initGlobals engEmpty) ("folium") = some Value.foliumMod ∧
    runStmts sPrintRaise (initRunState engEmpty) = (stPrintRaise, some zdExc) ∧
    (setAttrMap ⟨stPrintRaise.foliumMapAttr⟩ (dictGet stPrintRaise.ns ("folium"))
      cleanWorld.MapAttr).2 = none ∧
    (resOf (execute engEmpty cleanWorld sPrintRaise)
        = some (exceptDict zdExc stPrintRaise.out) ∧
      (exceptDict zdExc stPrintRaise.out).success = false ∧
      (exceptDict zdExc stPrintRaise.out).error
        = some (zdExc.kind ++ (": ") ++ zdExc.msg) ∧
      (exceptDict zdExc stPrintRaise.out).traceback = some (tracebackText zdExc) ∧
      (exceptDict zdExc stPrintRaise.out).output = stPrintRaise.out) :=
  ⟨by decide, by decide, by decide, by decide,
   runtime_error_reported engEmpty cleanWorld sPrintRaise stPrintRaise zdExc
     (by decide) (by decide) (by decide) (by decide)⟩

/-- C5 counterexample: a root with two document files informe.pdf and
informe.txt (M = 2 document files) is connected successfully, but the
reported document entry count is 1 — same-stem documents collapse. -/
theorem doc_count_collapses_cex :
    (connect store0 ("kb") fsDocs).2.success = true ∧
    (connect store0 ("kb") fsDocs).2.summary = some ⟨0, 1, 0⟩ ∧
    (docFilesOf fsDocs.entries).length = 2 := by
  refine ⟨?_, ?_, ?_⟩ <;> decide

/-- C5 amended: on an existing root without dedicated subfolders, connect
succeeds and reports, per category, the number of distinct basenames among
that category's files; and a basename whose layer files are all .shp
resolves first-seen-wins to the analysis of the first such file. -/
theorem connect_counts (st : GeoDataStore) (path : String) (disk : FS)
    (hroot : disk.rootExists = true)
    (hc : subExists disk ("capas") = false)
    (hd : subExists disk ("documentos") = false)
    (hm : subExists disk ("mapas") = false) :
    (connect st path disk).2.success = true ∧
    (connect st path disk).2.summary = some
      { capas := distinctCount (stemList (layerFilesOf disk.entries)),
        documentos := distinctCount (stemList (docFilesOf disk.entries)),
        mapas := distinctCount (stemList (mapFilesOf disk.entries)) } ∧
    (∀ s : String, AllShpStem disk.entries s →
      dictGet (connect st path disk).1.layers s =
        (disk.entries.find? (isShpNamed s)).map analyze_layer) := by
  have hff1 : folderFiles disk ("capas") = disk.entries := by
    rw [folderFiles, if_neg (by simp [hc])]
  have hff2 : folderFiles disk ("documentos") = disk.entries := by
    rw [folderFiles, if_neg (by simp [hd])]
  have hff3 : folderFiles disk ("mapas") = disk.entries := by
    rw [folderFiles, if_neg (by simp [hm])]
  refine ⟨by simp [connect, hroot], ?_, ?_⟩
  · simp only [connect, if_pos hroot]
    rw [hff1, hff2, hff3, scan_layers_length, scan_documents_length, scan_maps_length]
  · intro s hall
    have hl : (connect st path disk).1.layers = scan_layers (folderFiles disk ("capas")) := by
      simp [connect, hroot]
    rw [hl, hff1, scan_layers]
    exact scan_layers_aux_first disk.entries [] [] s hall (by simp) rfl

/-- Witness for C5 amended at a root holding two same-stem shapefiles, two
same-stem documents and one map project. -/
theorem connect_counts_witness :
    fsDemo.rootExists = true ∧ subExists fsDemo ("capas") = false ∧
    subExists fsDemo ("documentos") = false ∧ subExists fsDemo ("mapas") = false ∧
    ((connect store0 ("kb") fsDemo).2.success = true ∧
     (connect store0 ("kb") fsDemo).2.summary = some
       { capas := distinctCount (stemList (layerFilesOf fsDemo.entries)),
         documentos := distinctCount (stemList (docFilesOf fsDemo.entries)),
         mapas := distinctCount (stemList (mapFilesOf fsDemo.entries)) } ∧
     (∀ s : String, AllShpStem fsDemo.entries s →
       dictGet (connect store0 ("kb") fsDemo).1.layers s =
         (fsDemo.entries.find? (isShpNamed s)).map analyze_layer)) :=
  ⟨rfl, by decide, by decide, by decide,
   connect_counts store0 ("kb") fsDemo rfl (by decide) (by decide) (by decide)⟩

/-- C6: load is idempotent in its cached handle — once a call returns a
handle, calling load again returns the identical handle, with the store and
the allocation counter untouched (no re-parse). -/
theorem load_layer_idempotent (st : GeoDataStore) (disk : FS) (w : HandleWorld)
    (name : String) (h : Nat) (st2 : GeoDataStore) (w2 : HandleWorld)
    (h1 : load_layer st disk w name = (some h, st2, w2)) :
    load_layer st2 disk w2 name = (some h, st2, w2) := by
  cases hg : dictGet st.layers name with
  | none => simp [load_layer, hg] at h1
  | some layer =>
    cases hgdf : layer.gdf with
    | some h0 =>
      simp only [load_layer, hg, hgdf, Prod.mk.injEq, Option.some.injEq] at h1
      obtain ⟨hh, hst, hw⟩ := h1
      subst hh
      subst hst
      subst hw
      simp [load_layer, hg, hgdf]
    | none =>
      by_cases hdisk : diskRead disk layer.path = true
      · simp only [load_layer, hg, hgdf, if_pos hdisk, Prod.mk.injEq,
          Option.some.injEq] at h1
        obtain ⟨hh, hst, hw⟩ := h1
        subst hh
        subst hst
        subst hw
        simp [load_layer, dictGet_dictSet_self]
      · simp [load_layer, hg, hgdf, hdisk] at h1

/-- Witness for C6: loading good twice returns the identical handle 5. -/
theorem load_layer_idempotent_witness :
    load_layer stGood diskGood ⟨5⟩ ("good") = (some 5, stGoodLoaded, ⟨6⟩) ∧
    load_layer stGoodLoaded diskGood ⟨6⟩ ("good") = (some 5, stGoodLoaded, ⟨6⟩) :=
  ⟨by decide,
   load_layer_idempotent stGood diskGood ⟨5⟩ ("good") 5 stGoodLoaded ⟨6⟩ (by decide)⟩

/-- C7: re-connecting an existing root replaces the full entry set with the
new scan, independently of any prior store state; every scanned entry is
fresh (no materialized handle, not loaded), and loading an entry after the
rescan parses from disk, allocating a fresh handle. -/
theorem connect_replaces_entries (stA stB : GeoDataStore) (path : String) (disk : FS)
    (w : HandleWorld) (hroot : disk.rootExists = true) :
    (connect stA path disk).1.layers = scan_layers (folderFiles disk ("capas")) ∧
    (connect stA path disk).1.layers = (connect stB path disk).1.layers ∧
    (∀ p ∈ (connect stA path disk).1.layers, p.2.gdf = none ∧ p.2.loaded = false) ∧
    (∀ (name : String) (li : LayerInfo),
      dictGet (connect stA path disk).1.layers name = some li →
      diskRead disk li.path = true →
      (load_layer (connect stA path disk).1 disk w name).1 = some w.nextHandle ∧
      (load_layer (connect stA path disk).1 disk w name).2.2 = ⟨w.nextHandle + 1⟩) := by
  have hlay : (connect stA path disk).1.layers = scan_layers (folderFiles disk ("capas")) := by
    simp [connect, hroot]
  have hlayB : (connect stB path disk).1.layers = scan_layers (folderFiles disk ("capas")) := by
    simp [connect, hroot]
  have hfresh : ∀ p ∈ (connect stA path disk).1.layers, p.2.gdf = none ∧ p.2.loaded = false := by
    intro p hp
    rw [hlay] at hp
    exact scan_layers_aux_fresh _ [] [] (by simp) p hp
  refine ⟨hlay, hlay.trans hlayB.symm, hfresh, ?_⟩
  intro name li hget hdr
  have hnone : li.gdf = none := (hfresh (name, li) (dictGet_mem _ _ _ hget)).1
  constructor <;> simp [load_layer, hget, hnone, hdr]

/-- Witness for C7: reconnecting over a stale store discards its
materialized handle and a subsequent load allocates handle 7 afresh. -/
theorem connect_replaces_entries_witness :
    fsDemo.rootExists = true ∧
    ((connect stStale ("kb") fsDemo).1.layers = scan_layers (folderFiles fsDemo ("capas")) ∧
     (connect stStale ("kb") fsDemo).1.layers = (connect store0 ("kb") fsDemo).1.layers ∧
     (∀ p ∈ (connect stStale ("kb") fsDemo).1.layers, p.2.gdf = none ∧ p.2.loaded = false) ∧
     (∀ (name : String) (li : LayerInfo),
       dictGet (connect stStale ("kb") fsDemo).1.layers name = some li →
       diskRead fsDemo li.path = true →
       (load_layer (connect stStale ("kb") fsDemo).1 fsDemo ⟨7⟩ name).1 = some 7 ∧
       (load_layer (connect stStale ("kb") fsDemo).1 fsDemo ⟨7⟩ name).2.2 = ⟨8⟩)) :=
  ⟨rfl, connect_replaces_entries stStale store0 ("kb") fsDemo ⟨7⟩ rfl⟩

/-- C8 counterexample: loading the entry whose backing file fails to parse
returns null and leaves the store exactly as it was — no Failed state is
recorded anywhere (LayerInfo has no failure field to mark). -/
theorem load_failure_leaves_store_cex :
    dictGet stBad.layers ("bad") = some liBad ∧
    diskRead diskBad liBad.path = false ∧
    load_layer stBad diskBad ⟨7⟩ ("bad") = (none, stBad, ⟨7⟩) := by
  refine ⟨?_, ?_, ?_⟩ <;> decide

/-- C8 amended: for an entry with no cached handle, load returns null and
leaves the catalog unchanged when the backing file fails to parse (nothing
is marked — the code records no Failed state), and on success caches the
fresh handle on the entry and marks it loaded. -/
theorem load_layer_parse_outcome (st : GeoDataStore) (disk : FS) (w : HandleWorld)
    (name : String) (li : LayerInfo)
    (hget : dictGet st.layers name = some li) (hnone : li.gdf = none) :
    load_layer st disk w name =
      (if diskRead disk li.path then
        (some w.nextHandle,
         { st with
           layers := dictSet st.layers name { li with gdf := some w.nextHandle, loaded := true } },
         ⟨w.nextHandle + 1⟩)
      else (none, st, w)) := by
  by_cases hdisk : diskRead disk li.path = true
  · simp [load_layer, hget, hnone, hdisk]
  · simp [load_layer, hget, hnone, hdisk]

/-- Witness for C8 amended on both outcomes: the failing entry and the
parsing entry. -/
theorem load_layer_parse_outcome_witness :
    (dictGet stBad.layers ("bad") = some liBad ∧ liBad.gdf = none ∧
      load_layer stBad diskBad ⟨7⟩ ("bad") = (none, stBad, ⟨7⟩)) ∧
    (dictGet stGood.layers ("good") = some liGood ∧ liGood.gdf = none ∧
      load_layer stGood diskGood ⟨5⟩ ("good") = (some 5, stGoodLoaded, ⟨6⟩)) :=
  ⟨⟨by decide, by decide,
    load_layer_parse_outcome stBad diskBad ⟨7⟩ ("bad") liBad (by decide) (by decide)⟩,
   ⟨by decide, by decide,
    load_layer_parse_outcome stGood diskGood ⟨5⟩ ("good") liGood (by decide) (by decide)⟩⟩

/-- C9: loading a name absent from the catalog returns null immediately and
changes neither the store nor the allocation counter. -/
theorem load_layer_unknown_name (st : GeoDataStore) (disk : FS) (w : HandleWorld)
    (name : String) (h : dictGet st.layers name = none) :
    load_layer st disk w name = (none, st, w) := by
  simp [load_layer, h]

/-- Witness for C9 at an empty store. -/
theorem load_layer_unknown_name_witness :
    dictGet store0.layers ("nada") = none ∧
    load_layer store0 diskGood ⟨0⟩ ("nada") = (none, store0, ⟨0⟩) :=
  ⟨by decide, load_layer_unknown_name store0 diskGood ⟨0⟩ ("nada") (by decide)⟩

/-- C10: connect, load and loadAll preserve the invariant that a layer entry
is flagged loaded exactly when it caches a materialized handle, and under
that invariant the summary count of loaded layers equals the number of
entries holding a cached handle. -/
theorem loaded_iff_cached_invariant (st : GeoDataStore) (path : String) (disk : FS)
    (w : HandleWorld) (name : String) (hInv : StoreInv st) :
    StoreInv (connect st path disk).1 ∧
    StoreInv (load_layer st disk w name).2.1 ∧
    StoreInv (load_all_layers st disk w).2.1 ∧
    (get_summary st).capas_cargadas = st.layers.countP (fun p => p.2.gdf.isSome) := by
  refine ⟨?_, load_layer_inv st disk w name hInv, loadAllAux_inv disk _ st w hInv, ?_⟩
  · by_cases hroot : disk.rootExists = true
    · intro p hp
      have hl : (connect st path disk).1.layers = scan_layers (folderFiles disk ("capas")) := by
        simp [connect, hroot]
      rw [hl] at hp
      obtain ⟨hg, hld⟩ := scan_layers_aux_fresh _ [] [] (by simp) p hp
      rw [hld, hg]
      rfl
    · have hsame : (connect st path disk).1 = st := by
        simp [connect, hroot]
      rw [hsame]
      exact hInv
  · simp only [get_summary]
    exact countP_congr_on st.layers _ _ (fun p hp => hInv p hp)

/-- Witness for C10 at a store with one loaded and one unloaded entry. -/
theorem loaded_iff_cached_invariant_witness :
    StoreInv stInvDemo ∧
    (StoreInv (connect stInvDemo ("kb") diskGood).1 ∧
     StoreInv (load_layer stInvDemo diskGood ⟨9⟩ ("good")).2.1 ∧
     StoreInv (load_all_layers stInvDemo diskGood ⟨9⟩).2.1 ∧
     (get_summary stInvDemo).capas_cargadas =
       stInvDemo.layers.countP (fun p => p.2.gdf.isSome)) :=
  ⟨by unfold StoreInv; decide,
   loaded_iff_cached_invariant stInvDemo ("kb") diskGood ⟨9⟩ ("good")
     (by unfold StoreInv; decide)⟩

end GeoIA
